import Mathlib

/-!
Shallow embedding of the CryptAPI Python helper (`cryptapi/crypt_api.py`).

JSON values are modelled by an inductive `Json`; Python dicts become
association lists preserving insertion order; Python exceptions become an
explicit `PyError` sum carried in `Except`.  The network is an oracle
mapping each built HTTP request to either a transport-level failure or a
decoded JSON body, and every operation records the list of HTTP requests
it dispatched, so "zero requests issued" is a provable statement.
-/

namespace CryptAPI

/-- JSON values as decoded by `json.loads`. -/
inductive Json where
  | null
  | bool (b : Bool)
  | num (n : Int)
  | str (s : String)
  | arr (elems : List Json)
  | obj (fields : List (String × Json))

/-- Python-dict lookup on an association list: first binding wins. -/
def lookupKey : List (String × Json) → String → Option Json
  | [], _ => none
  | (k, v) :: rest, key => if k = key then some v else lookupKey rest key

/-- Python truthiness of a decoded JSON value (`if _address:`). -/
def Json.truthy : Json → Bool
  | .null => false
  | .bool b => b
  | .num n => decide (n ≠ 0)
  | .str s => decide (s ≠ "")
  | .arr elems => !elems.isEmpty
  | .obj fields => !fields.isEmpty

/-- The Python exceptions the helper can raise: `CryptAPIException` (the
gateway error type), plus the builtin exceptions the code can hit
(`KeyError` from `data["error"]` / `_address["address_in"]`, `TypeError`
from subscripting or concatenating a non-dict/non-str, `AttributeError`
from `.get`/`.keys`/`.pop` on a non-dict, and transport-level failures
from the HTTP client or JSON decoder). -/
inductive PyError where
  | cryptAPIException (msg : Json)
  | keyError (key : String)
  | typeError
  | attributeError
  | transportError

/-- `CryptAPIHelper.CRYPTAPI_URL`. -/
def CRYPTAPI_URL : String := "https://api.cryptapi.io/"

/-- `CryptAPIHelper.CRYPTAPI_HOST`. -/
def CRYPTAPI_HOST : String := "api.cryptapi.io"

/-- `coin.replace("_", "/")`: a single-character pattern, so Python's
`str.replace` is exactly a character-wise map. -/
def replaceUnderscore (s : String) : String :=
  String.mk (s.data.map (fun c => if c = '_' then '/' else c))

/-- URL assembly of `process_request`: `if coin: coin += "/"`, then
`"{base_url}{coin}{endpoint}/"` with `coin.replace("_", "/")`. -/
def buildUrl (coin endpoint : String) : String :=
  let coin2 := if coin ≠ "" then coin ++ "/" else coin
  CRYPTAPI_URL ++ replaceUnderscore coin2 ++ endpoint ++ "/"

theorem string_append_mk (a b : List Char) :
    String.mk a ++ String.mk b = String.mk (a ++ b) := rfl

theorem string_append_assoc (a b c : String) : a ++ b ++ c = a ++ (b ++ c) := by
  cases a; cases b; cases c
  simp [string_append_mk, List.append_assoc]

theorem replaceUnderscore_append (s t : String) :
    replaceUnderscore (s ++ t) = replaceUnderscore s ++ replaceUnderscore t := by
  cases s; cases t
  simp [replaceUnderscore, string_append_mk]

/-- Claim C1: for every coin string and endpoint name, the target URL is the
base URL `https://api.cryptapi.io/` followed by the coin with every
underscore replaced by a slash plus a trailing slash, then the endpoint name
and a trailing slash; when the coin is empty the coin segment is omitted
entirely with no extra slash; for coin `polygon_usdt` the URL contains the
path segment `polygon/usdt/`, never `polygon_usdt/`. -/
theorem C1_url_assembly :
    (∀ coin endpoint : String, coin ≠ "" →
      buildUrl coin endpoint =
        "https://api.cryptapi.io/" ++ (replaceUnderscore coin ++ "/") ++ (endpoint ++ "/")) ∧
    (∀ endpoint : String,
      buildUrl "" endpoint = "https://api.cryptapi.io/" ++ (endpoint ++ "/")) ∧
    (∀ endpoint : String,
      buildUrl "polygon_usdt" endpoint =
        "https://api.cryptapi.io/" ++ "polygon/usdt/" ++ (endpoint ++ "/")) ∧
    buildUrl "polygon_usdt" "create" = "https://api.cryptapi.io/polygon/usdt/create/" := by
  have hgen : ∀ coin endpoint : String, coin ≠ "" →
      buildUrl coin endpoint =
        "https://api.cryptapi.io/" ++ (replaceUnderscore coin ++ "/") ++ (endpoint ++ "/") := by
    intro coin endpoint h
    unfold buildUrl
    simp only [h, if_pos, ne_eq, not_false_iff, if_true]
    rw [replaceUnderscore_append]
    have h1 : replaceUnderscore "/" = "/" := rfl
    rw [h1, CRYPTAPI_URL]
    rw [string_append_assoc, string_append_assoc]
  refine ⟨hgen, ?_, ?_, ?_⟩
  · intro endpoint
    unfold buildUrl
    simp only [ne_eq, not_true_eq_false, if_false, ite_false]
    have h0 : replaceUnderscore "" = "" := rfl
    rw [h0, CRYPTAPI_URL]
    have : ("https://api.cryptapi.io/" : String) ++ "" = "https://api.cryptapi.io/" := by decide
    rw [this, string_append_assoc]
  · intro endpoint
    have : replaceUnderscore "polygon_usdt" ++ "/" = "polygon/usdt/" := by decide
    rw [hgen "polygon_usdt" endpoint (by decide), this]
  · decide

/-- Claim C1 witness: the general part instantiated at a concrete nonempty
coin. -/
theorem C1_url_assembly_witness :
    buildUrl "polygon_usdt" "logs" =
      "https://api.cryptapi.io/" ++ (replaceUnderscore "polygon_usdt" ++ "/") ++ ("logs" ++ "/") :=
  C1_url_assembly.1 "polygon_usdt" "logs" (by decide)

/-- An outbound HTTP GET as built by `process_request`: target URL, query
parameters, and the pinned `Host` header. -/
structure HttpRequest where
  url : String
  params : List (String × Json)
  host : String

/-- Outcome of one network round-trip: either the HTTP client or the JSON
decoder raised, or a decoded JSON body was obtained. -/
inductive NetResult where
  | transportError
  | response (data : Json)

/-- The network oracle: what each dispatched request comes back with. -/
def Net := HttpRequest → NetResult

/-- The request `process_request` dispatches for a coin, endpoint and
parameter mapping. -/
def buildRequest (coin endpoint : String) (params : List (String × Json)) :
    HttpRequest :=
  { url := buildUrl coin endpoint, params := params, host := CRYPTAPI_HOST }

/-- The Python condition `data.get("status", "") == "error"`: the default
`""` and every non-string value compare unequal to `"error"`, so the
condition holds exactly when the `status` field is the string `"error"`. -/
def statusIsError (fields : List (String × Json)) : Bool :=
  match lookupKey fields "status" with
  | some (.str s) => decide (s = "error")
  | _ => false

theorem statusIsError_iff (fields : List (String × Json)) :
    statusIsError fields = true ↔
      lookupKey fields "status" = some (.str "error") := by
  unfold statusIsError
  rcases hs : lookupKey fields "status" with _ | v
  · simp
  · cases v <;> simp_all

/-- Response handling of `process_request`:
`data.get("status", "") == "error"` raises `CryptAPIException(data["error"])`
(a `KeyError` when the `error` key is absent), anything else returns `data`
unchanged; `.get` on a non-dict body raises `AttributeError`. -/
def handleResponse (data : Json) : Except PyError Json :=
  match data with
  | .obj fields =>
      if statusIsError fields then
        match lookupKey fields "error" with
        | some e => .error (.cryptAPIException e)
        | none => .error (.keyError "error")
      else .ok data
  | _ => .error .attributeError

theorem handleResponse_ok (fields : List (String × Json))
    (h : lookupKey fields "status" ≠ some (.str "error")) :
    handleResponse (.obj fields) = .ok (.obj fields) := by
  have hb : statusIsError fields = false := by
    rcases hbv : statusIsError fields
    · rfl
    · exact absurd ((statusIsError_iff fields).mp hbv) h
  simp only [handleResponse, hb, Bool.false_eq_true, if_false]

theorem handleResponse_error (fields : List (String × Json)) (e : Json)
    (hs : lookupKey fields "status" = some (.str "error"))
    (he : lookupKey fields "error" = some e) :
    handleResponse (.obj fields) = .error (.cryptAPIException e) := by
  have hb : statusIsError fields = true := (statusIsError_iff fields).mpr hs
  simp only [handleResponse, hb, if_true, he]

/-- `process_request`: builds the request, dispatches it (always exactly
one request), and processes the decoded body. -/
def process_request (net : Net) (coin endpoint : String)
    (params : List (String × Json)) :
    Except PyError Json × List HttpRequest :=
  let req := buildRequest coin endpoint params
  (match net req with
   | .transportError => .error .transportError
   | .response data => handleResponse data,
   [req])

/-- Claim C2: for every dispatched request whose decoded body is a JSON
object, if the object's `status` field equals `"error"` the operation fails
with a `CryptAPIException` carrying exactly the object's `error` field, and
for every other decoded object (status absent or any other value, including
`"success"`) the decoded object is returned unchanged. -/
theorem C2_error_status_dispatch :
    ∀ (net : Net) (coin endpoint : String) (params : List (String × Json))
      (fields : List (String × Json)),
      net (buildRequest coin endpoint params) = .response (.obj fields) →
      ((∀ e, lookupKey fields "status" = some (.str "error") →
          lookupKey fields "error" = some e →
          (process_request net coin endpoint params).1 =
            .error (.cryptAPIException e)) ∧
       (lookupKey fields "status" ≠ some (.str "error") →
          (process_request net coin endpoint params).1 = .ok (.obj fields))) := by
  intro net coin endpoint params fields hnet
  constructor
  · intro e hs he
    simp only [process_request, hnet, handleResponse_error fields e hs he]
  · intro hs
    simp only [process_request, hnet, handleResponse_ok fields hs]

/-- Claim C2 witness: a concrete error response fails with its `error`
field, and a concrete success response is returned unchanged. -/
theorem C2_error_status_dispatch_witness :
    (process_request
        (fun _ => .response (.obj [("status", .str "error"), ("error", .str "bad address")]))
        "btc" "logs" []).1 = .error (.cryptAPIException (.str "bad address")) ∧
    (process_request
        (fun _ => .response (.obj [("status", .str "success"), ("qrcode", .str "x")]))
        "btc" "qrcode" []).1 = .ok (.obj [("status", .str "success"), ("qrcode", .str "x")]) := by
  constructor
  · exact (C2_error_status_dispatch
      (fun _ => .response (.obj [("status", .str "error"), ("error", .str "bad address")]))
      "btc" "logs" [] [("status", .str "error"), ("error", .str "bad address")] rfl).1
      (.str "bad address") rfl rfl
  · exact (C2_error_status_dispatch
      (fun _ => .response (.obj [("status", .str "success"), ("qrcode", .str "x")]))
      "btc" "qrcode" [] [("status", .str "success"), ("qrcode", .str "x")] rfl).2
      (by simp [lookupKey])

/-- Claim C10: when the decoded object's `status` equals `"error"`, the
`error` key is read unconditionally: if present, the raised
`CryptAPIException` carries exactly its value; if absent, the operation
fails with a `KeyError` rather than a `CryptAPIException`. -/
theorem C10_error_key_unconditional :
    ∀ fields : List (String × Json),
      lookupKey fields "status" = some (.str "error") →
      ((∀ e, lookupKey fields "error" = some e →
          handleResponse (.obj fields) = .error (.cryptAPIException e)) ∧
       (lookupKey fields "error" = none →
          handleResponse (.obj fields) = .error (.keyError "error"))) := by
  intro fields hs
  have hb : statusIsError fields = true := (statusIsError_iff fields).mpr hs
  constructor
  · intro e he
    exact handleResponse_error fields e hs he
  · intro he
    simp only [handleResponse, hb, if_true, he]

/-- Claim C10 witness: an error response without an `error` field fails
with `KeyError`, one with the field fails with the gateway message. -/
theorem C10_error_key_unconditional_witness :
    handleResponse (.obj [("status", .str "error")]) = .error (.keyError "error") ∧
    handleResponse (.obj [("status", .str "error"), ("error", .num 7)]) =
      .error (.cryptAPIException (.num 7)) := by
  constructor
  · exact (C10_error_key_unconditional [("status", .str "error")] rfl).2 rfl
  · exact (C10_error_key_unconditional [("status", .str "error"), ("error", .num 7)] rfl).1
      (.num 7) rfl

/-- The payment context held by a `CryptAPIHelper` instance.  The
`payment_address` slot is a `Json` value because Python assigns it whatever
`_address["address_in"]` decoded to. -/
structure CryptAPIHelper where
  coin : String
  owner_address : String
  callback_url : String
  payment_address : Json

/-- Observable resource events of construction: the pooled
`aiohttp.ClientSession` being allocated. -/
inductive Event where
  | allocSession
deriving DecidableEq, Repr

/-- `CryptAPIHelper.__init__`: `if not coin` / `if not owner_address` /
`if not callback_url` raise in that order (both `None` and `""` are falsy);
only after all three checks pass are the fields assigned,
`payment_address` initialised to `""`, and the pooled session allocated. -/
def CryptAPIHelper.init (coin owner_address callback_url : Option String) :
    Except PyError CryptAPIHelper × List Event :=
  if coin.getD "" = "" then
    (.error (.cryptAPIException (.str "CryptAPIHelper.__init__ Error: Coin is Missing.")), [])
  else if owner_address.getD "" = "" then
    (.error (.cryptAPIException (.str "CryptAPIHelper.__init__ Error: Owner Address is Missing.")), [])
  else if callback_url.getD "" = "" then
    (.error (.cryptAPIException (.str "CryptAPIHelper.__init__ Error: Callback URL is Missing.")), [])
  else
    (.ok { coin := coin.getD "", owner_address := owner_address.getD "",
           callback_url := callback_url.getD "", payment_address := .str "" },
     [.allocSession])

/-- Claim C5: constructing a context with coin, owner address, or callback
URL empty or absent fails with the corresponding named error, the checks
performed in order coin, owner address, callback URL; and every failed
construction allocates no pooled HTTP session. -/
theorem C5_init_validation :
    (∀ (coin owner_address callback_url : Option String), coin.getD "" = "" →
       CryptAPIHelper.init coin owner_address callback_url =
         (.error (.cryptAPIException
            (.str ("CryptAPIHelper.__init__ Error: " ++ "Coin is Missing" ++ "."))), [])) ∧
    (∀ (coin owner_address callback_url : Option String),
       coin.getD "" ≠ "" → owner_address.getD "" = "" →
       CryptAPIHelper.init coin owner_address callback_url =
         (.error (.cryptAPIException
            (.str ("CryptAPIHelper.__init__ Error: " ++ "Owner Address is Missing" ++ "."))), [])) ∧
    (∀ (coin owner_address callback_url : Option String),
       coin.getD "" ≠ "" → owner_address.getD "" ≠ "" → callback_url.getD "" = "" →
       CryptAPIHelper.init coin owner_address callback_url =
         (.error (.cryptAPIException
            (.str ("CryptAPIHelper.__init__ Error: " ++ "Callback URL is Missing" ++ "."))), [])) ∧
    (∀ (coin owner_address callback_url : Option String) (e : PyError) (ev : List Event),
       CryptAPIHelper.init coin owner_address callback_url = (.error e, ev) → ev = []) := by
  refine ⟨?_, ?_, ?_, ?_⟩
  · intro c o cb hc
    simp only [CryptAPIHelper.init, hc, if_pos]
    rfl
  · intro c o cb hc ho
    simp only [CryptAPIHelper.init, hc, ho, if_neg, if_pos]
    rfl
  · intro c o cb hc ho hcb
    simp only [CryptAPIHelper.init, hc, ho, hcb, if_neg, if_pos]
    rfl
  · intro c o cb e ev h
    by_cases hc : c.getD "" = ""
    · simp only [CryptAPIHelper.init, hc, if_pos] at h
      exact (Prod.mk.injEq _ _ _ _ ▸ h).2.symm ▸ rfl
    · by_cases ho : o.getD "" = ""
      · simp only [CryptAPIHelper.init, hc, ho, if_neg, if_pos] at h
        exact (Prod.mk.injEq _ _ _ _ ▸ h).2.symm ▸ rfl
      · by_cases hcb : cb.getD "" = ""
        · simp only [CryptAPIHelper.init, hc, ho, hcb, if_neg, if_pos] at h
          exact (Prod.mk.injEq _ _ _ _ ▸ h).2.symm ▸ rfl
        · simp only [CryptAPIHelper.init, hc, ho, hcb, if_neg] at h
          exact absurd (Prod.mk.injEq _ _ _ _ ▸ h).1 (by simp)

/-- Claim C5 witness: concrete failed constructions, each with an empty
event trace; a missing owner address is reported only once the coin check
passed. -/
theorem C5_init_validation_witness :
    CryptAPIHelper.init none (some "addr") (some "cb") =
      (.error (.cryptAPIException
         (.str ("CryptAPIHelper.__init__ Error: " ++ "Coin is Missing" ++ "."))), []) ∧
    CryptAPIHelper.init (some "btc") (some "") (some "cb") =
      (.error (.cryptAPIException
         (.str ("CryptAPIHelper.__init__ Error: " ++ "Owner Address is Missing" ++ "."))), []) ∧
    CryptAPIHelper.init (some "btc") (some "addr") none =
      (.error (.cryptAPIException
         (.str ("CryptAPIHelper.__init__ Error: " ++ "Callback URL is Missing" ++ "."))), []) :=
  ⟨C5_init_validation.1 none (some "addr") (some "cb") rfl,
   C5_init_validation.2.1 (some "btc") (some "") (some "cb") (by decide) rfl,
   C5_init_validation.2.2.1 (some "btc") (some "addr") none (by decide) (by decide) rfl⟩

/-- `_address["address_in"]`-style subscripting of a decoded value:
`KeyError` on a dict without the key, `TypeError` on a non-dict. -/
def Json.getItem (j : Json) (k : String) : Except PyError Json :=
  match j with
  | .obj fields =>
      match lookupKey fields k with
      | some v => .ok v
      | none => .error (.keyError k)
  | _ => .error .typeError

/-- Result of one instance-method call: the context after the call, the
returned value or raised exception, and the HTTP requests dispatched. -/
structure OpResult where
  ctx : CryptAPIHelper
  ret : Except PyError Json
  requests : List HttpRequest

/-- The parameter dict `generate_payment_address` assembles:
`{callback, address}` merged with `_optional_params =
{pending, [email], post: 0, json: 1, priority, convert: 0}`, in Python
dict insertion order. -/
def createParams (self : CryptAPIHelper) (pending : Bool)
    (owner_email : Option String) (priority : String) : List (String × Json) :=
  [("callback", .str self.callback_url), ("address", .str self.owner_address),
   ("pending", .num (if pending then 1 else 0))] ++
  (match owner_email with
   | some e => [("email", Json.str e)]
   | none => []) ++
  [("post", .num 0), ("json", .num 1),
   ("priority", .str priority), ("convert", .num 0)]

/-- `generate_payment_address`: dispatches to endpoint `"create"`; if the
returned `_address` is truthy, `self.payment_address = _address["address_in"]`
(which can itself raise) and `_address` is returned; a falsy `_address` is
returned without mutating the context; an exception from `process_request`
propagates. -/
def generate_payment_address (net : Net) (self : CryptAPIHelper)
    (pending : Bool) (owner_email : Option String) (priority : String) :
    OpResult :=
  let pr := process_request net self.coin "create"
    (createParams self pending owner_email priority)
  match pr.1 with
  | .error e => ⟨self, .error e, pr.2⟩
  | .ok data =>
      if data.truthy then
        match data.getItem "address_in" with
        | .ok x => ⟨{ self with payment_address := x }, .ok data, pr.2⟩
        | .error e => ⟨self, .error e, pr.2⟩
      else ⟨self, .ok data, pr.2⟩

/-- `get_payment_logs`: sends `{"callback": self.callback_url}` to
endpoint `"logs"`. -/
def get_payment_logs (net : Net) (self : CryptAPIHelper) : OpResult :=
  let pr := process_request net self.coin "logs"
    [("callback", .str self.callback_url)]
  ⟨self, pr.1, pr.2⟩

/-- `get_qrcode`: sends `{"address": self.payment_address, "value": "",
"size": size}` to endpoint `"qrcode"`, with no local validation of either
the size or the payment address. -/
def get_qrcode (net : Net) (self : CryptAPIHelper) (size : Int) : OpResult :=
  let pr := process_request net self.coin "qrcode"
    [("address", self.payment_address), ("value", .str ""), ("size", .num size)]
  ⟨self, pr.1, pr.2⟩

/-- `get_conversion`: `if not from_coin` raises before anything is sent;
otherwise sends `{"from": from_coin, "value": value}` to endpoint
`"convert"`. -/
def get_conversion (net : Net) (self : CryptAPIHelper)
    (from_coin : Option String) (value : Int) : OpResult :=
  if from_coin.getD "" = "" then
    ⟨self, .error (.cryptAPIException
       (.str "CryptAPIHelper.get_conversion Error: From Coin is Missing.")), []⟩
  else
    let pr := process_request net self.coin "convert"
      [("from", .str (from_coin.getD "")), ("value", .num value)]
    ⟨self, pr.1, pr.2⟩

/-- `close`: closes the pooled session; no context field is assigned. -/
def close (self : CryptAPIHelper) : CryptAPIHelper :=
  self

/-- Static `get_info`: endpoint `"info"` with empty coin and
`{"prices": "0"}`. -/
def get_info (net : Net) : Except PyError Json × List HttpRequest :=
  process_request net "" "info" [("prices", .str "0")]

/-- Static `get_coin_info`: `if not coin` raises before anything is sent;
otherwise endpoint `"info"` scoped to the coin with `{"prices": "0"}`. -/
def get_coin_info (net : Net) (coin : Option String) :
    Except PyError Json × List HttpRequest :=
  if coin.getD "" = "" then
    (.error (.cryptAPIException
       (.str "CryptAPIHelper.get_coin_info Error: Coin is Missing.")), [])
  else
    process_request net (coin.getD "") "info" [("prices", .str "0")]

/-- Static `get_estimate_fees`: `if not coin` raises before anything is
sent; otherwise sends `{"addresses": addresses, "priority": priority}` to
endpoint `"estimate"` scoped to the coin. -/
def get_estimate_fees (net : Net) (coin : Option String)
    (addresses : Int) (priority : String) :
    Except PyError Json × List HttpRequest :=
  if coin.getD "" = "" then
    (.error (.cryptAPIException
       (.str "CryptAPIHelper.get_estimate_fees Error: Coin is Missing.")), [])
  else
    process_request net (coin.getD "") "estimate"
      [("addresses", .num addresses), ("priority", .str priority)]

/-- Claim C7: `get_conversion` with no source coin fails with
"From Coin is Missing", and `get_coin_info` / `get_estimate_fees` with an
empty or absent coin fail with "Coin is Missing"; in every such case zero
HTTP requests are dispatched. -/
theorem C7_preconditions_before_dispatch :
    ∀ (net : Net) (self : CryptAPIHelper) (value addresses : Int) (priority : String),
      (∀ fc, fc = none ∨ fc = some "" →
        get_conversion net self fc value =
          ⟨self, .error (.cryptAPIException
             (.str ("CryptAPIHelper.get_conversion Error: " ++ "From Coin is Missing" ++ "."))),
           []⟩) ∧
      (∀ c, c = none ∨ c = some "" →
        get_coin_info net c =
          (.error (.cryptAPIException
             (.str ("CryptAPIHelper.get_coin_info Error: " ++ "Coin is Missing" ++ "."))), [])) ∧
      (∀ c, c = none ∨ c = some "" →
        get_estimate_fees net c addresses priority =
          (.error (.cryptAPIException
             (.str ("CryptAPIHelper.get_estimate_fees Error: " ++ "Coin is Missing" ++ "."))), [])) := by
  intro net self value addresses priority
  refine ⟨?_, ?_, ?_⟩
  · rintro fc (rfl | rfl) <;> rfl
  · rintro c (rfl | rfl) <;> rfl
  · rintro c (rfl | rfl) <;> rfl

/-- Claim C7 witness: concrete calls with an absent and with an empty
coin. -/
theorem C7_preconditions_before_dispatch_witness :
    get_conversion (fun _ => .transportError)
        ⟨"btc", "addr", "cb", .str ""⟩ none 10 =
      ⟨⟨"btc", "addr", "cb", .str ""⟩,
       .error (.cryptAPIException
          (.str ("CryptAPIHelper.get_conversion Error: " ++ "From Coin is Missing" ++ "."))),
       []⟩ ∧
    get_estimate_fees (fun _ => .transportError) (some "") 1 "default" =
      (.error (.cryptAPIException
         (.str ("CryptAPIHelper.get_estimate_fees Error: " ++ "Coin is Missing" ++ "."))), []) :=
  ⟨(C7_preconditions_before_dispatch (fun _ => .transportError)
      ⟨"btc", "addr", "cb", .str ""⟩ 10 1 "default").1 none (Or.inl rfl),
   (C7_preconditions_before_dispatch (fun _ => .transportError)
      ⟨"btc", "addr", "cb", .str ""⟩ 10 1 "default").2.2 (some "") (Or.inr rfl)⟩

/-- Claim C9: for every size value, `get_qrcode` dispatches exactly one
request to endpoint `"qrcode"` with parameters `{"address": the context's
current payment_address, "value": "", "size": size}`, with no local
validation (an out-of-range size is forwarded as-is), an unpopulated
payment address is sent as the empty string, and the context is left
unchanged. -/
theorem C9_qrcode_params :
    (∀ (net : Net) (self : CryptAPIHelper) (size : Int),
      (get_qrcode net self size).requests =
        [{ url := buildUrl self.coin "qrcode",
           params := [("address", self.payment_address),
                      ("value", Json.str ""), ("size", Json.num size)],
           host := "api.cryptapi.io" }] ∧
      (get_qrcode net self size).ctx = self) ∧
    (∀ (net : Net) (coin owner cb : String) (size : Int),
      (get_qrcode net ⟨coin, owner, cb, .str ""⟩ size).requests =
        [{ url := buildUrl coin "qrcode",
           params := [("address", Json.str ""),
                      ("value", Json.str ""), ("size", Json.num size)],
           host := "api.cryptapi.io" }]) := by
  refine ⟨fun net self size => ⟨rfl, rfl⟩, fun net coin owner cb size => rfl⟩

theorem genPA_requests (net : Net) (self : CryptAPIHelper) (pending : Bool)
    (owner_email : Option String) (priority : String) :
    (generate_payment_address net self pending owner_email priority).requests =
      [buildRequest self.coin "create" (createParams self pending owner_email priority)] := by
  unfold generate_payment_address
  cases hn : net (buildRequest self.coin "create" (createParams self pending owner_email priority)) with
  | transportError => simp [process_request, hn]
  | response data =>
      cases hh : handleResponse data with
      | error e => simp [process_request, hn, hh]
      | ok d =>
          by_cases ht : d.truthy
          · cases hg : d.getItem "address_in" with
            | ok x => simp [process_request, hn, hh, ht, hg]
            | error e => simp [process_request, hn, hh, ht, hg]
          · simp [process_request, hn, hh, ht]

theorem genPA_ctx_cases (net : Net) (self : CryptAPIHelper) (pending : Bool)
    (owner_email : Option String) (priority : String) :
    (generate_payment_address net self pending owner_email priority).ctx = self ∨
    ∃ x, (generate_payment_address net self pending owner_email priority).ctx =
      { self with payment_address := x } := by
  unfold generate_payment_address
  cases hn : net (buildRequest self.coin "create" (createParams self pending owner_email priority)) with
  | transportError => left; simp [process_request, hn]
  | response data =>
      cases hh : handleResponse data with
      | error e => left; simp [process_request, hn, hh]
      | ok d =>
          by_cases ht : d.truthy
          · cases hg : d.getItem "address_in" with
            | ok x =>
                right
                exact ⟨x, by simp [process_request, hn, hh, ht, hg]⟩
            | error e => left; simp [process_request, hn, hh, ht, hg]
          · left; simp [process_request, hn, hh, ht]

/-- Claim C3: `generate_payment_address` sends to endpoint `"create"`
exactly the parameters `callback`, `address`, `pending` (1/0), `email`
only when provided, `post=0`, `json=1`, `priority`, `convert=0`; and for
every success response whose `address_in` equals `x`, the context's
`payment_address` is set to `x` and the full decoded response is
returned. -/
theorem C3_generate_address :
    ∀ (net : Net) (self : CryptAPIHelper) (pending : Bool)
      (owner_email : Option String) (priority : String),
      (generate_payment_address net self pending owner_email priority).requests =
        [{ url := buildUrl self.coin "create",
           params :=
             [("callback", Json.str self.callback_url),
              ("address", Json.str self.owner_address),
              ("pending", Json.num (if pending then 1 else 0))] ++
             (match owner_email with
              | some e => [("email", Json.str e)]
              | none => []) ++
             [("post", Json.num 0), ("json", Json.num 1),
              ("priority", Json.str priority), ("convert", Json.num 0)],
           host := "api.cryptapi.io" }] ∧
      (∀ (fields : List (String × Json)) (x : Json),
        net (buildRequest self.coin "create"
              (createParams self pending owner_email priority)) =
          .response (.obj fields) →
        lookupKey fields "status" = some (.str "success") →
        lookupKey fields "address_in" = some x →
        (generate_payment_address net self pending owner_email priority).ctx =
          { self with payment_address := x } ∧
        (generate_payment_address net self pending owner_email priority).ret =
          .ok (.obj fields)) := by
  intro net self pending owner_email priority
  constructor
  · rw [genPA_requests]
    rfl
  · intro fields x hnet hs hx
    have hne : lookupKey fields "status" ≠ some (.str "error") := by
      rw [hs]
      intro h
      have := Option.some.inj h
      simp at this
    have hok : (process_request net self.coin "create"
        (createParams self pending owner_email priority)).1 = .ok (.obj fields) := by
      simp only [process_request, hnet, handleResponse_ok fields hne]
    have hfne : fields.isEmpty = false := by
      cases fields with
      | nil => exact absurd hx (by simp [lookupKey])
      | cons p rest => rfl
    have htr : (Json.obj fields).truthy = true := by
      simp [Json.truthy, hfne]
    have hgi : (Json.obj fields).getItem "address_in" = .ok x := by
      simp only [Json.getItem, hx]
    constructor
    · simp only [generate_payment_address, hok, htr, if_true, hgi]
    · simp only [generate_payment_address, hok, htr, if_true, hgi]

/-- Claim C3 witness: a concrete success response sets the payment address
and is returned in full. -/
theorem C3_generate_address_witness :
    (generate_payment_address
        (fun _ => .response (.obj [("status", .str "success"), ("address_in", .str "X")]))
        ⟨"btc", "addr", "cb", .str ""⟩ false none "default").ctx =
      ⟨"btc", "addr", "cb", .str "X"⟩ ∧
    (generate_payment_address
        (fun _ => .response (.obj [("status", .str "success"), ("address_in", .str "X")]))
        ⟨"btc", "addr", "cb", .str ""⟩ false none "default").ret =
      .ok (.obj [("status", .str "success"), ("address_in", .str "X")]) :=
  (C3_generate_address
      (fun _ => .response (.obj [("status", .str "success"), ("address_in", .str "X")]))
      ⟨"btc", "addr", "cb", .str ""⟩ false none "default").2
    [("status", .str "success"), ("address_in", .str "X")] (.str "X") rfl rfl rfl

/-- Claim C4: when `generate_payment_address` fails — the dispatch raised,
the decoded response is falsy, or the response lacks `address_in` — the
context's `payment_address` is left unchanged, and when the request raised
the operation propagates the error instead of returning a response
object. -/
theorem C4_generate_address_failure :
    ∀ (net : Net) (self : CryptAPIHelper) (pending : Bool)
      (owner_email : Option String) (priority : String),
      (∀ e, (process_request net self.coin "create"
              (createParams self pending owner_email priority)).1 = .error e →
        (generate_payment_address net self pending owner_email priority).ctx = self ∧
        (generate_payment_address net self pending owner_email priority).ret = .error e) ∧
      (∀ data, (process_request net self.coin "create"
              (createParams self pending owner_email priority)).1 = .ok data →
        data.truthy = false →
        (generate_payment_address net self pending owner_email priority).ctx = self ∧
        (generate_payment_address net self pending owner_email priority).ret = .ok data) ∧
      (∀ data e, (process_request net self.coin "create"
              (createParams self pending owner_email priority)).1 = .ok data →
        data.truthy = true →
        data.getItem "address_in" = .error e →
        (generate_payment_address net self pending owner_email priority).ctx = self ∧
        (generate_payment_address net self pending owner_email priority).ret = .error e) := by
  intro net self pending owner_email priority
  refine ⟨?_, ?_, ?_⟩
  · intro e h
    constructor <;> simp only [generate_payment_address, h]
  · intro data h ht
    constructor <;>
      simp only [generate_payment_address, h, ht, Bool.false_eq_true, if_false]
  · intro data e h ht hg
    constructor <;> simp only [generate_payment_address, h, ht, if_true, hg]

/-- Claim C4 witness: three concrete failed calls — a raising dispatch, a
falsy (empty-object) response, and a truthy response missing `address_in`
— each leaving the context unchanged. -/
theorem C4_generate_address_failure_witness :
    ((generate_payment_address (fun _ => .transportError)
        ⟨"btc", "addr", "cb", .str ""⟩ false none "default").ctx =
      ⟨"btc", "addr", "cb", .str ""⟩ ∧
     (generate_payment_address (fun _ => .transportError)
        ⟨"btc", "addr", "cb", .str ""⟩ false none "default").ret =
      .error .transportError) ∧
    ((generate_payment_address (fun _ => .response (.obj []))
        ⟨"btc", "addr", "cb", .str ""⟩ false none "default").ctx =
      ⟨"btc", "addr", "cb", .str ""⟩) ∧
    ((generate_payment_address (fun _ => .response (.obj [("status", .str "success")]))
        ⟨"btc", "addr", "cb", .str ""⟩ false none "default").ctx =
      ⟨"btc", "addr", "cb", .str ""⟩) :=
  ⟨(C4_generate_address_failure (fun _ => .transportError)
      ⟨"btc", "addr", "cb", .str ""⟩ false none "default").1 .transportError rfl,
   ((C4_generate_address_failure (fun _ => .response (.obj []))
      ⟨"btc", "addr", "cb", .str ""⟩ false none "default").2.1 (.obj []) rfl rfl).1,
   ((C4_generate_address_failure (fun _ => .response (.obj [("status", .str "success")]))
      ⟨"btc", "addr", "cb", .str ""⟩ false none "default").2.2 (.obj [("status", .str "success")])
      (.keyError "address_in") rfl rfl rfl).1⟩

/-- One instance-method call on a constructed context. -/
inductive Op where
  | genAddress (pending : Bool) (owner_email : Option String) (priority : String)
  | logs
  | qrcode (size : Int)
  | conversion (from_coin : Option String) (value : Int)
  | closeCall

/-- Whether an operation is the generate-address call. -/
def Op.isGenAddress : Op → Bool
  | .genAddress _ _ _ => true
  | _ => false

/-- The context after one operation (the only state an operation can
touch). -/
def runOp (net : Net) (self : CryptAPIHelper) : Op → CryptAPIHelper
  | .genAddress p e pr => (generate_payment_address net self p e pr).ctx
  | .logs => (get_payment_logs net self).ctx
  | .qrcode s => (get_qrcode net self s).ctx
  | .conversion f v => (get_conversion net self f v).ctx
  | .closeCall => close self

/-- The context after a sequence of operations. -/
def runOps (net : Net) : CryptAPIHelper → List Op → CryptAPIHelper
  | self, [] => self
  | self, op :: rest => runOps net (runOp net self op) rest

theorem get_conversion_ctx (net : Net) (self : CryptAPIHelper)
    (from_coin : Option String) (value : Int) :
    (get_conversion net self from_coin value).ctx = self := by
  unfold get_conversion
  split <;> rfl

theorem runOp_immutable (net : Net) (self : CryptAPIHelper) (op : Op) :
    (runOp net self op).coin = self.coin ∧
    (runOp net self op).owner_address = self.owner_address ∧
    (runOp net self op).callback_url = self.callback_url := by
  cases op with
  | genAddress p e pr =>
      rcases genPA_ctx_cases net self p e pr with h | ⟨x, h⟩ <;>
        refine ⟨?_, ?_, ?_⟩ <;> simp [runOp, h]
  | logs => exact ⟨rfl, rfl, rfl⟩
  | qrcode s => exact ⟨rfl, rfl, rfl⟩
  | conversion f v =>
      refine ⟨?_, ?_, ?_⟩ <;> simp [runOp, get_conversion_ctx]
  | closeCall => exact ⟨rfl, rfl, rfl⟩

theorem runOp_payment_address (net : Net) (self : CryptAPIHelper) (op : Op)
    (h : op.isGenAddress = false) :
    (runOp net self op).payment_address = self.payment_address := by
  cases op with
  | genAddress p e pr => exact absurd h (by simp [Op.isGenAddress])
  | logs => rfl
  | qrcode s => rfl
  | conversion f v => simp only [runOp, get_conversion_ctx]
  | closeCall => rfl

/-- Claim C8: over every sequence of operations on a constructed context,
the coin, owner address and callback URL keep their construction-time
values; `payment_address` starts as the empty string on construction and
is mutated only by `generate_payment_address` — any sequence without that
operation leaves it unchanged. -/
theorem C8_context_invariants :
    ∀ (net : Net) (self : CryptAPIHelper) (ops : List Op),
      ((runOps net self ops).coin = self.coin ∧
       (runOps net self ops).owner_address = self.owner_address ∧
       (runOps net self ops).callback_url = self.callback_url) ∧
      (ops.all (fun op => !op.isGenAddress) = true →
        (runOps net self ops).payment_address = self.payment_address) ∧
      (∀ (c o cb : Option String) (ctx0 : CryptAPIHelper) (ev : List Event),
        CryptAPIHelper.init c o cb = (.ok ctx0, ev) →
        ctx0.payment_address = .str "") := by
  intro net self ops
  refine ⟨?_, ?_, ?_⟩
  · induction ops generalizing self with
    | nil => exact ⟨rfl, rfl, rfl⟩
    | cons op rest ih =>
        have h1 := runOp_immutable net self op
        have h2 := ih (runOp net self op)
        exact ⟨h2.1.trans h1.1, h2.2.1.trans h1.2.1, h2.2.2.trans h1.2.2⟩
  · induction ops generalizing self with
    | nil => intro _; rfl
    | cons op rest ih =>
        intro hall
        simp only [List.all_cons, Bool.and_eq_true, Bool.not_eq_true'] at hall
        have h1 := runOp_payment_address net self op hall.1
        have h2 := ih (runOp net self op) (by simp [List.all_eq_true] at hall ⊢; exact hall.2)
        exact h2.trans h1
  · intro c o cb ctx0 ev h
    by_cases hc : c.getD "" = ""
    · simp only [CryptAPIHelper.init, hc, if_pos] at h
      exact absurd (Prod.mk.injEq _ _ _ _ ▸ h).1 (by simp)
    · by_cases ho : o.getD "" = ""
      · simp only [CryptAPIHelper.init, hc, ho, if_neg, if_pos] at h
        exact absurd (Prod.mk.injEq _ _ _ _ ▸ h).1 (by simp)
      · by_cases hcb : cb.getD "" = ""
        · simp only [CryptAPIHelper.init, hc, ho, hcb, if_neg, if_pos] at h
          exact absurd (Prod.mk.injEq _ _ _ _ ▸ h).1 (by simp)
        · simp only [CryptAPIHelper.init, hc, ho, hcb, if_neg] at h
          have := Except.ok.inj (Prod.mk.injEq _ _ _ _ ▸ h).1
          rw [← this]

/-- Claim C8 witness: a concrete generate-address-free sequence leaves the
payment address unchanged, and a concrete successful construction starts
it at the empty string. -/
theorem C8_context_invariants_witness :
    (runOps (fun _ => .transportError) ⟨"btc", "addr", "cb", .str ""⟩
        [Op.logs, Op.qrcode 512, Op.closeCall]).payment_address = .str "" ∧
    (⟨"btc", "addr", "cb", .str ""⟩ : CryptAPIHelper).payment_address = .str "" :=
  ⟨(C8_context_invariants (fun _ => .transportError) ⟨"btc", "addr", "cb", .str ""⟩
      [Op.logs, Op.qrcode 512, Op.closeCall]).2.1 rfl,
   (C8_context_invariants (fun _ => .transportError) ⟨"btc", "addr", "cb", .str ""⟩
      [Op.logs, Op.qrcode 512, Op.closeCall]).2.2 (some "btc") (some "addr") (some "cb")
      ⟨"btc", "addr", "cb", .str ""⟩ [Event.allocSession] rfl⟩

/-- Python dict assignment `d[k] = v`: overwrites in place when the key
exists, otherwise appends a new binding. -/
def dictInsert (d : List (String × Json)) (k : String) (v : Json) :
    List (String × Json) :=
  if d.any (fun p => decide (p.1 = k)) then
    d.map (fun p => if p.1 = k then (k, v) else p)
  else d ++ [(k, v)]

/-- `_info.pop("fee_tiers", None)`: the remaining bindings. -/
def popFeeTiers (fields : List (String × Json)) : List (String × Json) :=
  fields.filter (fun p => decide (p.1 ≠ "fee_tiers"))

/-- `ticker.upper()`: character-wise ASCII uppercasing, which is what
`str.upper` performs on the ASCII tickers the gateway uses. -/
def upperString (s : String) : String :=
  String.mk (s.data.map Char.toUpper)

/-- The inner loop of `get_supported_coins`:
`for token, token_info in coin_info.items():
   _coins[ticker + "_" + token] = token_info["coin"] + " (" + ticker.upper() + ")"`
with `token_info["coin"]` raising `KeyError`/`TypeError` as subscripting
does, and `+` on a non-string raising `TypeError`. -/
def foldTokens (ticker : String) :
    List (String × Json) → List (String × Json) →
      Except PyError (List (String × Json))
  | acc, [] => .ok acc
  | acc, (token, ti) :: rest =>
      match ti with
      | .obj tf =>
          match lookupKey tf "coin" with
          | some (.str name) =>
              foldTokens ticker
                (dictInsert acc (ticker ++ "_" ++ token)
                  (.str (name ++ " (" ++ upperString ticker ++ ")"))) rest
          | some _ => .error .typeError
          | none => .error (.keyError "coin")
      | _ => .error .typeError

/-- One iteration of the outer loop of `get_supported_coins`:
`if "coin" in coin_info.keys(): _coins[ticker] = coin_info["coin"]`
else the token loop; `.keys()` on a non-dict raises `AttributeError`. -/
def flattenEntry (coins : List (String × Json)) (ticker : String) (ci : Json) :
    Except PyError (List (String × Json)) :=
  match ci with
  | .obj fields =>
      match lookupKey fields "coin" with
      | some v => .ok (dictInsert coins ticker v)
      | none => foldTokens ticker coins fields
  | _ => .error .attributeError

/-- The outer loop of `get_supported_coins` over the info payload's
entries. -/
def foldFlatten :
    List (String × Json) → List (String × Json) →
      Except PyError (List (String × Json))
  | acc, [] => .ok acc
  | acc, (ticker, ci) :: rest =>
      match flattenEntry acc ticker ci with
      | .ok acc2 => foldFlatten acc2 rest
      | .error e => .error e

/-- `get_supported_coins` applied to an already-decoded info payload:
`pop("fee_tiers")`, then the flattening loop starting from the empty
dict. -/
def supportedCoinsOfInfo (info : Json) : Except PyError (List (String × Json)) :=
  match info with
  | .obj fields => foldFlatten [] (popFeeTiers fields)
  | _ => .error .attributeError

/-- Static `get_supported_coins`: `get_info` followed by the flattening;
an exception from `get_info` propagates. -/
def get_supported_coins (net : Net) :
    Except PyError (List (String × Json)) × List HttpRequest :=
  match get_info net with
  | (.ok info, reqs) => (supportedCoinsOfInfo info, reqs)
  | (.error e, reqs) => (.error e, reqs)

/-- Spec-side description of one token entry (`get_supported_coins`
refinement): key `<ticker>_<token>`, value the token's display name
followed by the uppercased ticker in parentheses. -/
def tokenEntrySpec (ticker token : String) (ti : Json) : String × Json :=
  (ticker ++ "_" ++ token,
   .str ((match ti with
          | .obj tf =>
              match lookupKey tf "coin" with
              | some (.str s) => s
              | _ => ""
          | _ => "") ++ " (" ++ upperString ticker ++ ")"))

/-- Spec-side description of the entries one top-level ticker contributes:
a direct `coin` field maps ticker to that display name, otherwise every
token expands per `tokenEntrySpec`. -/
def expandEntrySpec (ticker : String) (ci : Json) : List (String × Json) :=
  match ci with
  | .obj fields =>
      match lookupKey fields "coin" with
      | some v => [(ticker, v)]
      | none => fields.map (fun p => tokenEntrySpec ticker p.1 p.2)
  | _ => []

/-- Spec-side flat mapping over a whole entry list. -/
def flatSpecList : List (String × Json) → List (String × Json)
  | [] => []
  | p :: rest => expandEntrySpec p.1 p.2 ++ flatSpecList rest

/-- Spec-side result of `get_supported_coins` on an info payload. -/
def flatSpec (fields : List (String × Json)) : List (String × Json) :=
  flatSpecList (popFeeTiers fields)

/-- A well-formed token entry: a dict whose `coin` field is a string. -/
def wfTokenInfo (ti : Json) : Bool :=
  match ti with
  | .obj tf =>
      match lookupKey tf "coin" with
      | some (.str _) => true
      | _ => false
  | _ => false

/-- A well-formed top-level entry: a dict that either has a direct `coin`
field or is a mapping of well-formed token entries. -/
def wfCoinInfo (ci : Json) : Bool :=
  match ci with
  | .obj fields =>
      (lookupKey fields "coin").isSome || fields.all (fun p => wfTokenInfo p.2)
  | _ => false

/-- The keys of an association list. -/
def keysOf (l : List (String × Json)) : List String :=
  l.map (fun p => p.1)

theorem keysOf_append (a b : List (String × Json)) :
    keysOf (a ++ b) = keysOf a ++ keysOf b := by
  simp [keysOf]

theorem dictInsert_fresh (d : List (String × Json)) (k : String) (v : Json)
    (h : k ∉ keysOf d) : dictInsert d k v = d ++ [(k, v)] := by
  unfold dictInsert
  rw [if_neg]
  simp only [List.any_eq_true, decide_eq_true_eq, not_exists]
  intro p hp
  rcases hp with ⟨hmem, hk⟩
  exact h (List.mem_map.mpr ⟨p, hmem, hk⟩)

theorem keys_tokenEntries (t : String) (l : List (String × Json)) :
    keysOf (l.map (fun p => tokenEntrySpec t p.1 p.2)) =
      l.map (fun p => t ++ "_" ++ p.1) := by
  induction l with
  | nil => rfl
  | cons hd rest ih => simp [keysOf, tokenEntrySpec, ih]

theorem foldTokens_spec (ticker : String) (tf : List (String × Json)) :
    ∀ acc : List (String × Json),
      tf.all (fun p => wfTokenInfo p.2) = true →
      (∀ p ∈ tf, (ticker ++ "_" ++ p.1) ∉ keysOf acc) →
      (tf.map (fun p => ticker ++ "_" ++ p.1)).Nodup →
      foldTokens ticker acc tf =
        .ok (acc ++ tf.map (fun p => tokenEntrySpec ticker p.1 p.2)) := by
  induction tf with
  | nil =>
      intro acc _ _ _
      simp [foldTokens]
  | cons hd rest ih =>
      intro acc hwf hfresh hnd
      obtain ⟨token, ti⟩ := hd
      simp only [List.all_cons, Bool.and_eq_true] at hwf
      obtain ⟨hwf1, hwfr⟩ := hwf
      cases ti with
      | obj tfields =>
          cases hlk : lookupKey tfields "coin" with
          | none => simp [wfTokenInfo, hlk] at hwf1
          | some cv =>
              cases cv with
              | str name =>
                  have hkey : (ticker ++ "_" ++ token) ∉ keysOf acc :=
                    hfresh (token, .obj tfields) (List.mem_cons_self _ _)
                  have hnd' := List.nodup_cons.mp hnd
                  have hfresh' : ∀ p ∈ rest,
                      (ticker ++ "_" ++ p.1) ∉
                        keysOf (acc ++ [(ticker ++ "_" ++ token,
                          Json.str (name ++ " (" ++ upperString ticker ++ ")"))]) := by
                    intro p hp
                    rw [keysOf_append]
                    intro hmem
                    rcases List.mem_append.mp hmem with hmem1 | hmem2
                    · exact hfresh p (List.mem_cons_of_mem _ hp) hmem1
                    · have heq : ticker ++ "_" ++ p.1 = ticker ++ "_" ++ token := by
                        simpa [keysOf] using hmem2
                      exact hnd'.1 (show ticker ++ "_" ++ token ∈
                          List.map (fun p => ticker ++ "_" ++ p.1) rest from by
                        rw [← heq]
                        exact List.mem_map_of_mem _ hp)
                  have hstep := ih
                    (acc ++ [(ticker ++ "_" ++ token,
                      Json.str (name ++ " (" ++ upperString ticker ++ ")"))])
                    hwfr hfresh' hnd'.2
                  simp only [foldTokens, hlk]
                  rw [dictInsert_fresh acc _ _ hkey, hstep]
                  simp [tokenEntrySpec, hlk]
              | null => simp [wfTokenInfo, hlk] at hwf1
              | bool b => simp [wfTokenInfo, hlk] at hwf1
              | num n => simp [wfTokenInfo, hlk] at hwf1
              | arr a => simp [wfTokenInfo, hlk] at hwf1
              | obj o => simp [wfTokenInfo, hlk] at hwf1
      | null => simp [wfTokenInfo] at hwf1
      | bool b => simp [wfTokenInfo] at hwf1
      | num n => simp [wfTokenInfo] at hwf1
      | str s => simp [wfTokenInfo] at hwf1
      | arr a => simp [wfTokenInfo] at hwf1

theorem foldFlatten_spec (entries : List (String × Json)) :
    ∀ acc : List (String × Json),
      entries.all (fun p => wfCoinInfo p.2) = true →
      (∀ k ∈ keysOf (flatSpecList entries), k ∉ keysOf acc) →
      (keysOf (flatSpecList entries)).Nodup →
      foldFlatten acc entries = .ok (acc ++ flatSpecList entries) := by
  induction entries with
  | nil =>
      intro acc _ _ _
      simp [foldFlatten, flatSpecList]
  | cons hd rest ih =>
      intro acc hwf hfresh hnd
      obtain ⟨ticker, ci⟩ := hd
      simp only [List.all_cons, Bool.and_eq_true] at hwf
      obtain ⟨hwf1, hwfr⟩ := hwf
      cases ci with
      | obj cfields =>
          cases hlk : lookupKey cfields "coin" with
          | some v =>
              have hspec : flatSpecList ((ticker, Json.obj cfields) :: rest) =
                  (ticker, v) :: flatSpecList rest := by
                simp [flatSpecList, expandEntrySpec, hlk]
              rw [hspec] at hfresh hnd ⊢
              have hkeys : keysOf ((ticker, v) :: flatSpecList rest) =
                  ticker :: keysOf (flatSpecList rest) := rfl
              rw [hkeys] at hfresh hnd
              have hnd' := List.nodup_cons.mp hnd
              have hkey : ticker ∉ keysOf acc :=
                hfresh ticker (List.mem_cons_self _ _)
              have hfresh2 : ∀ k ∈ keysOf (flatSpecList rest),
                  k ∉ keysOf (acc ++ [(ticker, v)]) := by
                intro k hk
                rw [keysOf_append]
                intro hmem
                rcases List.mem_append.mp hmem with hmem1 | hmem2
                · exact hfresh k (List.mem_cons_of_mem _ hk) hmem1
                · have heq : k = ticker := by simpa [keysOf] using hmem2
                  exact hnd'.1 (by rw [← heq]; exact hk)
              have hstep := ih (acc ++ [(ticker, v)]) hwfr hfresh2 hnd'.2
              simp only [foldFlatten, flattenEntry, hlk]
              rw [dictInsert_fresh acc _ _ hkey, hstep]
              simp
          | none =>
              have hall : cfields.all (fun p => wfTokenInfo p.2) = true := by
                simpa [wfCoinInfo, hlk] using hwf1
              have hspec : flatSpecList ((ticker, Json.obj cfields) :: rest) =
                  cfields.map (fun p => tokenEntrySpec ticker p.1 p.2) ++
                    flatSpecList rest := by
                simp [flatSpecList, expandEntrySpec, hlk]
              rw [hspec] at hfresh hnd ⊢
              rw [keysOf_append, keys_tokenEntries] at hfresh hnd
              have hndl := (List.nodup_append.mp hnd).1
              have hndr := (List.nodup_append.mp hnd).2.1
              have hdisj := (List.nodup_append.mp hnd).2.2
              have hfreshTok : ∀ p ∈ cfields, (ticker ++ "_" ++ p.1) ∉ keysOf acc := by
                intro p hp
                exact hfresh _ (List.mem_append.mpr (Or.inl (List.mem_map_of_mem _ hp)))
              have htok := foldTokens_spec ticker cfields acc hall hfreshTok hndl
              have hfresh2 : ∀ k ∈ keysOf (flatSpecList rest),
                  k ∉ keysOf (acc ++ cfields.map (fun p => tokenEntrySpec ticker p.1 p.2)) := by
                intro k hk
                rw [keysOf_append, keys_tokenEntries]
                intro hmem
                rcases List.mem_append.mp hmem with hmem1 | hmem2
                · exact hfresh k (List.mem_append.mpr (Or.inr hk)) hmem1
                · exact hdisj hmem2 hk
              have hstep := ih (acc ++ cfields.map (fun p => tokenEntrySpec ticker p.1 p.2))
                hwfr hfresh2 hndr
              simp only [foldFlatten, flattenEntry, hlk, htok]
              rw [hstep]
              simp
      | null => simp [wfCoinInfo] at hwf1
      | bool b => simp [wfCoinInfo] at hwf1
      | num n => simp [wfCoinInfo] at hwf1
      | str s => simp [wfCoinInfo] at hwf1
      | arr a => simp [wfCoinInfo] at hwf1

/-- Claim C6: `get_supported_coins` discards a top-level `fee_tiers` key
and flattens the payload: a ticker with a direct `coin` field maps to its
display name, a multi-token ticker expands to `<ticker>_<token>` entries
with the uppercased ticker appended in parentheses; on the synthetic
payload of the spec the result is exactly
`{"btc": "Bitcoin", "trc20_usdt": "Tether (TRC20)"}`. -/
theorem C6_supported_coins :
    (∀ (net : Net) (fields : List (String × Json)),
      (get_info net).1 = .ok (.obj fields) →
      (popFeeTiers fields).all (fun p => wfCoinInfo p.2) = true →
      (keysOf (flatSpec fields)).Nodup →
      (get_supported_coins net).1 = .ok (flatSpec fields)) ∧
    (get_supported_coins (fun _ => .response (.obj
        [("btc", .obj [("coin", .str "Bitcoin")]),
         ("trc20", .obj [("usdt", .obj [("coin", .str "Tether")])]),
         ("fee_tiers", .obj [("standard", .num 1)])]))).1 =
      .ok [("btc", .str "Bitcoin"), ("trc20_usdt", .str "Tether (TRC20)")] := by
  constructor
  · intro net fields hinfo hwf hnd
    have hmain : supportedCoinsOfInfo (.obj fields) = .ok (flatSpec fields) := by
      show foldFlatten [] (popFeeTiers fields) = .ok (flatSpec fields)
      rw [foldFlatten_spec (popFeeTiers fields) [] hwf (by simp [keysOf]) hnd]
      rfl
    rcases hg : get_info net with ⟨res, reqs⟩
    rw [hg] at hinfo
    simp only at hinfo
    rw [hinfo] at hg
    simp only [get_supported_coins, hg, hmain]
  · rfl

/-- Claim C6 witness: the general flattening theorem applied to the
synthetic payload. -/
theorem C6_supported_coins_witness :
    (get_supported_coins (fun _ => .response (.obj
        [("btc", .obj [("coin", .str "Bitcoin")]),
         ("trc20", .obj [("usdt", .obj [("coin", .str "Tether")])]),
         ("fee_tiers", .obj [("standard", .num 1)])]))).1 =
      .ok (flatSpec
        [("btc", .obj [("coin", .str "Bitcoin")]),
         ("trc20", .obj [("usdt", .obj [("coin", .str "Tether")])]),
         ("fee_tiers", .obj [("standard", .num 1)])]) :=
  C6_supported_coins.1
    (fun _ => .response (.obj
      [("btc", .obj [("coin", .str "Bitcoin")]),
       ("trc20", .obj [("usdt", .obj [("coin", .str "Tether")])]),
       ("fee_tiers", .obj [("standard", .num 1)])]))
    [("btc", .obj [("coin", .str "Bitcoin")]),
     ("trc20", .obj [("usdt", .obj [("coin", .str "Tether")])]),
     ("fee_tiers", .obj [("standard", .num 1)])]
    rfl rfl (by decide)

end CryptAPI
